import Mathlib

set_option maxHeartbeats 1000000

/-!
Verification development for the wirl durable workflow orchestrator.

The definitions below are a shallow embedding of the Python sources:
  apps/workers/workers/db.py          (claim_job, set_state, run_wirl)
  apps/workers/workers/worker_pool.py (worker)
  apps/backend/backend/scheduler.py   (calculate_next_run, _enqueue_trigger_run)
  apps/backend/backend/main.py        (continue_workflow, workflows_history,
                                       workflow_run_details and its helpers)
  apps/backend/backend/models.py      (WorkflowRun, WorkflowTrigger)

Database rows are modelled as Lean structures, a table as a list of rows,
timestamps as abstract Nat instants, and JSON documents by the inductive
type Json below.  SQL statements are translated to pure functions on the
table; serialisation (json.dumps / jsonable_encoder) is taken as the
identity on the Json model.
-/

namespace Wirl

/-- JSON documents: the value space of the inputs, result and
resume_payload columns and of checkpoint channel values. -/
inductive Json where
  | null : Json
  | bool : Bool → Json
  | num : Int → Json
  | str : String → Json
  | arr : List Json → Json
  | obj : List (String × Json) → Json

/-- A row of the workflow_runs table (backend/models.py, WorkflowRun).
The id column is a UUID string ordered by ORDER BY id; ids are modelled
as Nat so that the ordering is explicit.  updated_at is omitted: it is
an ORM-managed audit column that no claim mentions. -/
structure RunRow where
  id : Nat
  graph_name : String
  thread_id : String
  state : String
  attempt : Nat
  max_attempts : Nat
  worker_id : Option String
  started_at : Option Nat
  heartbeat_at : Option Nat
  finished_at : Option Nat
  error : Option String
  inputs : Option Json
  resume_payload : Option Json
  result : Option Json
  created_at : Nat

/-- The SET clause of the UPDATE in claim_job (workers/db.py lines 28-36):
state='running', worker_id=$1, started_at=now(), heartbeat_at=now(),
attempt=attempt+1. -/
def claimUpdate (row : RunRow) (worker_id : String) (now : Nat) : RunRow :=
  { row with
    state := "running"
    worker_id := some worker_id
    started_at := some now
    heartbeat_at := some now
    attempt := row.attempt + 1 }

/-- The CTE of claim_job: SELECT id FROM workflow_runs WHERE state='queued'
ORDER BY id LIMIT 1 (workers/db.py lines 20-27).  Returns a queued row of
minimal id, none when no row is queued. -/
def selectMinQueued : List RunRow → Option RunRow
  | [] => none
  | r :: rest =>
    match selectMinQueued rest with
    | none => if r.state = "queued" then some r else none
    | some m => if r.state = "queued" ∧ r.id ≤ m.id then some r else some m

/-- claim_job (workers/db.py lines 16-40): one transaction that selects the
queued row of smallest id, applies claimUpdate to it, and returns the
updated row (RETURNING workflow_runs.*) together with the updated table;
returns none and leaves the table unchanged when nothing is queued. -/
def claim_job (db : List RunRow) (worker_id : String) (now : Nat) :
    Option RunRow × List RunRow :=
  match selectMinQueued db with
  | none => (none, db)
  | some r =>
    (some (claimUpdate r worker_id now),
     db.map (fun row => if row.id = r.id then claimUpdate row worker_id now else row))

/-- SQL COALESCE of two nullable values. -/
def sqlCoalesce (a : Option Json) (b : Option Json) : Option Json :=
  match a with
  | some x => some x
  | none => b

/-- The per-row effect of the UPDATE in set_state (workers/db.py lines
43-70).  Faithful points: the Python layer computes
res_str = json.dumps(result) if result is not None else "\x7b\x7d",
so the bind parameter $4 handed to COALESCE($4, result) is never SQL NULL;
finished_at uses CASE WHEN ... THEN now() END with no ELSE branch, which
yields NULL on non-terminal states; the WHERE clause is
id = $1 AND state != 'canceled'. -/
def set_state_row (job_id : Nat) (new_state : String) (result : Option Json)
    (error : Option String) (now : Nat) (row : RunRow) : RunRow :=
  let res_str : Json :=
    match result with
    | some r => r
    | none => Json.obj []
  if row.id = job_id ∧ ¬ row.state = "canceled" then
    { row with
      state := new_state
      heartbeat_at := if new_state = "running" then some now else row.heartbeat_at
      finished_at :=
        if new_state = "succeeded" ∨ new_state = "failed" ∨ new_state = "canceled"
        then some now else none
      error := error
      result := sqlCoalesce (some res_str) row.result }
  else row

/-- set_state (workers/db.py lines 43-70) applied to the whole table. -/
def set_state (db : List RunRow) (job_id : Nat) (new_state : String)
    (result : Option Json) (error : Option String) (now : Nat) : List RunRow :=
  db.map (set_state_row job_id new_state result error now)

/-- Python dict key membership test, used for "__interrupt__" in result. -/
def hasKey (m : List (String × Json)) (k : String) : Bool :=
  m.any (fun kv => kv.fst == k)

/-- The terminal-state classification at the end of run_wirl
(workers/db.py line 109):
state = "needs_input" if "__interrupt__" in result else "succeeded". -/
def run_wirl_state (result : List (String × Json)) : String :=
  if hasKey result "__interrupt__" then "needs_input" else "succeeded"

/-- Outcome of awaiting run_wirl under the per-task timeout
(workers/worker_pool.py lines 24-38). -/
inductive RunOutcome where
  | completed : List (String × Json) → RunOutcome
  | timedOut : Nat → RunOutcome
  | errored : String → RunOutcome

/-- The finalisation step of the worker loop (workers/worker_pool.py lines
24-38): on completion set_state with the classified state and the result;
on timeout set_state failed with the canonical message; on any other
exception set_state failed with the stringified error. -/
def worker_finalize (db : List RunRow) (job_id : Nat) (outcome : RunOutcome)
    (now : Nat) : List RunRow :=
  match outcome with
  | RunOutcome.completed result =>
      set_state db job_id (run_wirl_state result) (some (Json.obj result)) none now
  | RunOutcome.timedOut minutes =>
      set_state db job_id "failed" none
        (some ("Task timed out after " ++ toString minutes ++ " minutes")) now
  | RunOutcome.errored msg =>
      set_state db job_id "failed" none (some msg) now

/-- Result of an API handler: a value or an HTTP error status with detail. -/
inductive ApiResult (α : Type) where
  | ok : α → ApiResult α
  | err : Nat → String → ApiResult α

/-- The state transition of POST /workflows/\x7bid\x7d/continue once the run
row has been fetched (backend/main.py lines 391-397): reject unless the
state is needs_input or failed; from needs_input store
resume_payload = json.dumps(\x7b"answer": request.inputs\x7d); in both
accepted cases set state to queued.  The resume_payload column holds the
serialised text of the Json document recorded here. -/
def continue_run (run : RunRow) (inputs : Json) : ApiResult RunRow :=
  if ¬ run.state = "needs_input" ∧ ¬ run.state = "failed" then
    ApiResult.err 400 "Workflow cannot be continued"
  else
    let run1 :=
      if run.state = "needs_input" then
        { run with resume_payload := some (Json.obj [("answer", inputs)]) }
      else run
    ApiResult.ok { run1 with state := "queued" }

/-- continue_workflow (backend/main.py lines 382-400): fetch by id (404 when
absent), apply continue_run, and commit the updated row on success. -/
def continue_workflow (db : List RunRow) (run_id : Nat) (inputs : Json) :
    ApiResult RunRow × List RunRow :=
  match db.find? (fun r => r.id == run_id) with
  | none => (ApiResult.err 404 "Workflow not found", db)
  | some run =>
    match continue_run run inputs with
    | ApiResult.ok run2 =>
        (ApiResult.ok run2, db.map (fun r => if r.id = run_id then run2 else r))
    | ApiResult.err s m => (ApiResult.err s m, db)

/-!
Cron evaluator.  The source delegates cron matching to the external
croniter library and timezone arithmetic to zoneinfo, neither of which is
repository code, so the matching core is modelled from the spec while
calculate_next_run itself follows the structure of
backend/scheduler.py lines 25-41: interpret the reference instant in the
zone, truncate to the start of the minute, and take the first matching
instant strictly after it, re-expressed in UTC.
-/

/-- Modelled from the spec: a five-field cron expression (minute, hour,
day of month, month, day of week), each field a set of accepted values;
croniter itself is an external library absent from the sources. -/
structure CronExpr where
  minutes : List Nat
  hours : List Nat
  monthdays : List Nat
  months : List Nat
  weekdays : List Nat

/-- Gregorian civil date from a count of days since 1970-01-01
(the standard era-based conversion): returns (year, month, day). -/
def civilFromDays (z0 : Nat) : Nat × Nat × Nat :=
  let z := z0 + 719468
  let era := z / 146097
  let doe := z % 146097
  let yoe := (doe - doe / 1460 + doe / 36524 - doe / 146096) / 365
  let doy := doe - (365 * yoe + yoe / 4 - yoe / 100)
  let mp := (5 * doy + 2) / 153
  let d := doy - (153 * mp + 2) / 5 + 1
  let m := if mp < 10 then mp + 3 else mp - 9
  let y := yoe + era * 400
  (if m ≤ 2 then y + 1 else y, m, d)

/-- The five cron fields of a local wall-clock minute (minutes since the
local epoch): minute, hour, day of month, month, day of week with
Sunday = 0 (1970-01-01 was a Thursday, day 4). -/
def fieldsOfLocalMinute (lm : Nat) : Nat × Nat × Nat × Nat × Nat :=
  let days := lm / 1440
  let ymd := civilFromDays days
  (lm % 60, (lm / 60) % 24, ymd.snd.snd, ymd.snd.fst, (days + 4) % 7)

/-- Modelled from the spec: whether a local minute matches the cron
expression, every field matching its value set. -/
def cronMatches (e : CronExpr) (lm : Nat) : Bool :=
  let f := fieldsOfLocalMinute lm
  e.minutes.contains f.fst &&
  e.hours.contains f.snd.fst &&
  e.monthdays.contains f.snd.snd.fst &&
  e.months.contains f.snd.snd.snd.fst &&
  e.weekdays.contains f.snd.snd.snd.snd

/-- Whether the UTC instant u (seconds since epoch) is a firing instant of
the expression in a zone of fixed east-of-UTC offset (minutes): firing
instants are minute-aligned and their local minute matches.  Fixed-offset
zones stand in for IANA zones, whose database lives outside the sources. -/
def matchesInZone (e : CronExpr) (offset : Nat) (u : Nat) : Bool :=
  decide (u % 60 = 0) && cronMatches e (u / 60 + offset)

/-- croniter.get_next from a minute-aligned base: scan successive minutes
starting at m, returning the first whose local time matches; fuel bounds
the search (croniter searches unboundedly). -/
def findNextMatch (e : CronExpr) (offset : Nat) : Nat → Nat → Option Nat
  | 0, _ => none
  | fuel + 1, m => if cronMatches e (m + offset) then some m else findNextMatch e offset fuel (m + 1)

/-- calculate_next_run (backend/scheduler.py lines 25-41): convert the
reference UTC instant t (seconds) to the zone, truncate to the start of
the minute, take the first matching instant strictly after it, and return
it as a UTC instant.  Fuel exhaustion models croniter failure, which the
source wraps in CronExpressionError. -/
def calculate_next_run (e : CronExpr) (offset : Nat) (t : Nat) (fuel : Nat) : Option Nat :=
  (findNextMatch e offset fuel (t / 60 + 1)).map (fun m => m * 60)

/-- A row of the workflow_triggers table (backend/models.py,
WorkflowTrigger), with the timezone column modelled by its fixed offset. -/
structure Trigger where
  id : Nat
  name : String
  template_name : String
  cron : CronExpr
  tzOffset : Nat
  inputs : Json
  is_active : Bool
  next_run_at : Option Nat
  last_run_at : Option Nat
  last_error : Option String

/-- _enqueue_trigger_run (backend/scheduler.py lines 102-137): when the
template is missing, record last_error and disable the trigger; otherwise
insert one queued run carrying the trigger's inputs, set last_run_at,
clear last_error, and recompute next_run_at from now (never from the
stale value); a cron failure nulls next_run_at, disables the trigger and
records last_error, the run staying enqueued.  freshId stands for the
generated UUID, fuel for the croniter search bound. -/
def enqueue_trigger_run (templateExists : Bool) (tr : Trigger) (now : Nat)
    (freshId : Nat) (fuel : Nat) : Trigger × Option RunRow :=
  if ¬ templateExists then
    ({ tr with
        last_error := some ("Template " ++ tr.template_name ++ " not found")
        is_active := false
        next_run_at := none }, none)
  else
    let run : RunRow :=
      { id := freshId
        graph_name := tr.template_name
        thread_id := toString freshId
        state := "queued"
        attempt := 0
        max_attempts := 3
        worker_id := none
        started_at := none
        heartbeat_at := none
        finished_at := none
        error := none
        inputs := some tr.inputs
        resume_payload := none
        result := some (Json.obj [])
        created_at := now }
    let tr1 := { tr with last_run_at := some now, last_error := none }
    match calculate_next_run tr.cron tr.tzOffset now fuel with
    | some r => ({ tr1 with next_run_at := some r }, some run)
    | none =>
        ({ tr1 with
            next_run_at := none
            is_active := false
            last_error := some "cron evaluation failed" }, some run)

/-!
GET /workflows pagination (backend/main.py lines 226-244).  The limit and
offset query parameters are declared with Query(10, ge=1, le=100) and
Query(0, ge=0); FastAPI answers constraint violations with its standard
validation response, HTTP status 422, before the handler body runs.
-/

/-- Ordering used by ORDER BY created_at DESC: a before b when b's
created_at does not exceed a's. -/
def histRel (a b : RunRow) : Prop := b.created_at ≤ a.created_at

instance : DecidableRel histRel := fun a b => Nat.decLe b.created_at a.created_at

instance : IsTotal RunRow histRel := ⟨fun a b => Nat.le_total b.created_at a.created_at⟩

instance : IsTrans RunRow histRel := ⟨fun _ _ _ hab hbc => Nat.le_trans hbc hab⟩

/-- One item of the history page (backend/main.py lines 235-243). -/
structure HistoryItem where
  id : Nat
  template : String
  status : String
  created_at : Nat

/-- The history page (backend/models.py, WorkflowHistoryPage). -/
structure HistoryPage where
  total : Nat
  limit : Int
  offset : Int
  items : List HistoryItem

/-- workflows_history (backend/main.py lines 226-244), preceded by
FastAPI's validation of the Query constraints (its documented behaviour:
a violated ge/le constraint yields a 422 validation response).  The body
counts the table, orders it by created_at descending (modelled by
insertion sort under histRel), applies offset then limit, and projects
each row to a history item. -/
def workflows_history (db : List RunRow) (limit offset : Int) : ApiResult HistoryPage :=
  if limit < 1 ∨ 100 < limit ∨ offset < 0 then
    ApiResult.err 422 "validation error"
  else
    let sorted := List.insertionSort histRel db
    let page := (sorted.drop offset.toNat).take limit.toNat
    ApiResult.ok
      { total := db.length
        limit := limit
        offset := offset
        items := page.map (fun r =>
          { id := r.id
            template := r.graph_name
            status := r.state
            created_at := r.created_at }) }

/-!
Run-Details Reader (backend/main.py lines 47-89 and 262-356).
-/

/-- Association map with Python-dict semantics: insertion order kept,
an existing key overwritten in place, a new key appended. -/
def SMap : Type := List (String × Json)

/-- Dict lookup. -/
def lookupS : SMap → String → Option Json
  | [], _ => none
  | kv :: m, c => if kv.fst = c then some kv.snd else lookupS m c

/-- Dict assignment d[k] = v. -/
def insertS : SMap → String → Json → SMap
  | [], k, v => [(k, v)]
  | kv :: m, k, v => if kv.fst = k then (k, v) :: m else kv :: insertS m k v

/-- str.startswith, via character-list comparison. -/
def startsWithS (s p : String) : Bool := p.toList.isPrefixOf s.toList

/-- _filter_state (backend/main.py lines 47-48): drop keys beginning with
"branch:" or "__". -/
def filter_state (m : SMap) : SMap :=
  m.filter (fun kv => !(startsWithS kv.fst "branch:") && !(startsWithS kv.fst "__"))

/-- A pending-write triple (task_id, channel, value) of a checkpoint. -/
structure WriteEntry where
  task_id : String
  channel : String
  value : Json

/-- _extract_branch_targets (backend/main.py lines 51-66): the targets of
the "branch:to:" writes, in order. -/
def extract_branch_targets (ws : List WriteEntry) : List String :=
  ws.filterMap (fun w =>
    if startsWithS w.channel "branch:to:" then some (w.channel.drop 10) else none)

/-- _classify_channel (backend/main.py lines 69-74). -/
def classify_channel (c : String) : String :=
  if startsWithS c "branch:" then "branch"
  else if startsWithS c "__" then "system"
  else "state"

/-- One group of consecutive writes sharing a task_id. -/
structure Group where
  task_id : String
  writes : List (String × Json)

/-- Helper of group_writes: accumulate the writes of the currently open
group (identified by tid) and start a new group when the task_id
changes. -/
def group_cons (tid : String) (acc : List (String × Json)) :
    List WriteEntry → List Group
  | [] => [{ task_id := tid, writes := acc }]
  | w :: ws =>
    if w.task_id = tid then group_cons tid (acc ++ [(w.channel, w.value)]) ws
    else { task_id := tid, writes := acc } :: group_cons w.task_id [(w.channel, w.value)] ws

/-- _group_writes (backend/main.py lines 77-89): group the pending writes
by runs of equal task_id, keeping order. -/
def group_writes : List WriteEntry → List Group
  | [] => []
  | w :: ws => group_cons w.task_id [(w.channel, w.value)] ws

/-- One emitted step of the run-details view (backend/models.py,
WorkflowRunStep); writes holds (channel, kind, value). -/
structure StepOut where
  step : Int
  checkpoint_id : String
  timestamp : String
  node : Option String
  task_id : String
  input_state : SMap
  output_state : SMap
  branches : List String
  writes : List (String × String × Json)

/-- The mutable locals of the inner write loop (backend/main.py lines
316-336): the inferred node name, the state being updated, the changed
keys, the branch targets, the formatted writes and the pending-node
queue. -/
structure GroupAcc where
  node : Option String
  state_after : SMap
  output_changes : SMap
  branches : List String
  formatted : List (String × String × Json)
  pending : List String

/-- The body of the write loop (backend/main.py lines 316-336): format the
write; a "branch:to:" channel records a branch target and extends the
pending-node queue; a state channel updates state_after and
output_changes and may infer the node name from a "Node.field" channel;
system and other branch channels only appear among the formatted
writes. -/
def apply_write (acc : GroupAcc) (w : String × Json) : GroupAcc :=
  let kind := classify_channel w.fst
  let acc1 := { acc with formatted := acc.formatted ++ [(w.fst, kind, w.snd)] }
  if startsWithS w.fst "branch:to:" then
    let target := w.fst.drop 10
    { acc1 with branches := acc1.branches ++ [target], pending := acc1.pending ++ [target] }
  else if kind = "state" then
    let node1 :=
      match acc1.node with
      | some n => some n
      | none =>
        if w.fst.toList.contains '.' then some ((w.fst.splitOn ".").headD w.fst) else none
    { acc1 with
        state_after := insertS acc1.state_after w.fst w.snd
        output_changes := insertS acc1.output_changes w.fst w.snd
        node := node1 }
  else acc1

/-- The per-group body (backend/main.py lines 308-350): pop the next
pending node (if any) as the node name, snapshot input_state before
applying the group, fold the writes, and emit the step; returns the step
together with the updated state and pending-node queue. -/
def process_group (cpId ts : String) (stepNum : Option Int) (nsteps : Nat)
    (state : SMap) (pending : List String) (g : Group) :
    StepOut × SMap × List String :=
  let acc0 : GroupAcc :=
    { node := pending.head?
      state_after := state
      output_changes := []
      branches := []
      formatted := []
      pending := pending.tail }
  let acc := g.writes.foldl apply_write acc0
  ({ step :=
      match stepNum with
      | some n => n
      | none => Int.ofNat nsteps
     checkpoint_id := cpId
     timestamp := ts
     node := acc.node
     task_id := g.task_id
     input_state := state
     output_state := acc.output_changes
     branches := acc.branches
     writes := acc.formatted },
   acc.state_after, acc.pending)

/-- The loop over the grouped writes of one checkpoint (backend/main.py
lines 308-350), threading current_state, the pending-node queue and the
emitted-step count. -/
def process_groups (cpId ts : String) (stepNum : Option Int) (nsteps : Nat)
    (state : SMap) (pending : List String) :
    List Group → List StepOut × SMap × List String
  | [] => ([], state, pending)
  | g :: gs =>
    let out := process_group cpId ts stepNum nsteps state pending g
    let rest := process_groups cpId ts stepNum (nsteps + 1) out.snd.fst out.snd.snd gs
    (out.fst :: rest.fst, rest.snd)

/-- A checkpoint tuple as the reader consumes it: id, wall time, channel
values, the integer metadata step when present, and the pending writes. -/
structure CheckpointTuple where
  checkpoint_id : String
  ts : String
  channel_values : SMap
  step : Option Int
  pending_writes : List WriteEntry

/-- The loop state of workflow_run_details (backend/main.py lines
281-284). -/
structure ReaderState where
  initial_state : SMap
  steps : List StepOut
  current_state : SMap
  pending_nodes : List String

/-- The per-checkpoint body of workflow_run_details (backend/main.py lines
286-354): a checkpoint with metadata step < 0 initialises current_state
and initial_state and seeds the pending-node queue; a checkpoint whose
writes group to nothing only refreshes current_state; otherwise each
group emits a step, and afterwards current_state is reset to the
checkpoint's filtered channel values. -/
def process_checkpoint (rs : ReaderState) (cp : CheckpointTuple) : ReaderState :=
  let filtered := filter_state cp.channel_values
  let isBaseline : Bool :=
    match cp.step with
    | some n => decide (n < 0)
    | none => false
  if isBaseline then
    { rs with
        current_state := filtered
        initial_state := filtered
        pending_nodes := rs.pending_nodes ++ extract_branch_targets cp.pending_writes }
  else
    let grouped := group_writes cp.pending_writes
    if grouped.isEmpty then
      { rs with
          current_state := filtered
          initial_state := if rs.initial_state.isEmpty then filtered else rs.initial_state }
    else
      let out := process_groups cp.checkpoint_id cp.ts cp.step rs.steps.length
        rs.current_state rs.pending_nodes grouped
      { initial_state := if rs.initial_state.isEmpty then filtered else rs.initial_state
        steps := rs.steps ++ out.fst
        current_state := filtered
        pending_nodes := out.snd.snd }

/-- workflow_run_details (backend/main.py lines 262-356) after the
checkpoints have been listed and reversed to oldest-first order: fold the
checkpoints and return (run_id, initial_state, steps). -/
def run_details (run_id : String) (cps : List CheckpointTuple) :
    String × SMap × List StepOut :=
  let rs := cps.foldl process_checkpoint
    { initial_state := [], steps := [], current_state := [], pending_nodes := [] }
  (run_id, rs.initial_state, rs.steps)

/-!
Helper definitions for the run-details proofs.
-/

/-- The effect of one write of a group on a state map: exactly the update
that apply_write performs on state_after and on output_changes — a write
to a state channel (not a "branch:to:" control write) overwrites its key,
any other write leaves the map unchanged. -/
def state_step (m : SMap) (w : String × Json) : SMap :=
  if startsWithS w.fst "branch:to:" then m
  else if classify_channel w.fst = "state" then insertS m w.fst w.snd else m

/-- Applying a whole write group to the reader's current state. -/
def apply_group_state (st : SMap) (g : Group) : SMap :=
  g.writes.foldl state_step st

/-- Written from the claim's words, for comparison with the reader: the
value recorded for channel c by a list of writes is the value of the last
write to c whose channel is a state channel (neither "branch:"- nor
"__"-prefixed); none when there is no such write. -/
def spec_output_state : List (String × Json) → String → Option Json
  | [], _ => none
  | w :: ws, c =>
    match spec_output_state ws c with
    | some v => some v
    | none =>
      if w.fst = c ∧ startsWithS w.fst "branch:" = false ∧ startsWithS w.fst "__" = false
      then some w.snd else none

/-!
Concrete rows exercised by the witnesses.
-/

/-- A queued run row used to witness claim_job_spec. -/
def rowQ : RunRow :=
  { id := 3
    graph_name := "g"
    thread_id := "3"
    state := "queued"
    attempt := 0
    max_attempts := 3
    worker_id := none
    started_at := none
    heartbeat_at := none
    finished_at := none
    error := none
    inputs := some (Json.obj [])
    resume_payload := none
    result := some (Json.obj [])
    created_at := 0 }

/-- A canceled run row used to witness set_state_canceled_absorbing. -/
def rowCanceled : RunRow :=
  { rowQ with id := 4, state := "canceled", result := some (Json.str "kept") }

/-- A run row holding a previously stored non-trivial result. -/
def rowWithResult : RunRow :=
  { rowQ with id := 1, state := "needs_input", result := some (Json.obj [("a", Json.num 1)]) }

/-- Run rows in the three states exercised by the continue witness. -/
def rowNeedsInput : RunRow := { rowQ with id := 5, state := "needs_input" }

def rowFailed : RunRow :=
  { rowQ with id := 6, state := "failed", resume_payload := some (Json.str "old") }

def rowRunning : RunRow := { rowQ with id := 7, state := "running" }

/-- Two rows out of creation order, to witness the sorted page. -/
def rowOld : RunRow := { rowQ with id := 10, created_at := 5 }

def rowNew : RunRow := { rowQ with id := 11, created_at := 9 }

/-- A cron expression firing at 00:02 on 1970-01-01 (a Thursday). -/
def cronW : CronExpr :=
  { minutes := [2], hours := [0], monthdays := [1], months := [1], weekdays := [4] }

/-- A trigger due at the witness tick. -/
def trigW : Trigger :=
  { id := 1
    name := "nightly"
    template_name := "demo"
    cron := cronW
    tzOffset := 0
    inputs := Json.obj [("k", Json.str "v")]
    is_active := true
    next_run_at := some 90
    last_run_at := none
    last_error := none }

/-- The write group used by the run-details witness: a state write, a
control write and a system write under one task id. -/
def groupW : Group :=
  { task_id := "t1"
    writes := [("AskNode.answer", Json.num 1), ("branch:to:B", Json.null), ("__interrupt__", Json.null)] }

/-! ## Lemmas about the queued-row selection of claim_job -/

theorem selectMinQueued_none_forall (db : List RunRow)
    (h : selectMinQueued db = none) : ∀ r ∈ db, r.state ≠ "queued" := by
  induction db with
  | nil => intro r hr; cases hr
  | cons r rest ih =>
    cases hrest : selectMinQueued rest with
    | none =>
      simp only [selectMinQueued, hrest] at h
      by_cases hq : r.state = "queued"
      · rw [if_pos hq] at h; cases h
      · intro q hqmem
        rcases List.mem_cons.mp hqmem with rfl | hmem
        · exact hq
        · exact ih hrest q hmem
    | some m =>
      simp only [selectMinQueued, hrest] at h
      split at h <;> cases h

theorem selectMinQueued_some_spec (db : List RunRow) (m : RunRow)
    (h : selectMinQueued db = some m) :
    m ∈ db ∧ m.state = "queued" ∧ ∀ q ∈ db, q.state = "queued" → m.id ≤ q.id := by
  induction db generalizing m with
  | nil => cases h
  | cons r rest ih =>
    cases hrest : selectMinQueued rest with
    | none =>
      simp only [selectMinQueued, hrest] at h
      by_cases hq : r.state = "queued"
      · rw [if_pos hq] at h
        cases h
        refine ⟨List.mem_cons_self r rest, hq, ?_⟩
        intro q hqmem hqst
        rcases List.mem_cons.mp hqmem with rfl | hmem
        · exact Nat.le_refl _
        · exact absurd hqst (selectMinQueued_none_forall rest hrest q hmem)
      · rw [if_neg hq] at h; cases h
    | some m0 =>
      simp only [selectMinQueued, hrest] at h
      obtain ⟨hm0mem, hm0q, hm0min⟩ := ih m0 hrest
      by_cases hc : r.state = "queued" ∧ r.id ≤ m0.id
      · rw [if_pos hc] at h
        cases h
        refine ⟨List.mem_cons_self r rest, hc.1, ?_⟩
        intro q hqmem hqst
        rcases List.mem_cons.mp hqmem with rfl | hmem
        · exact Nat.le_refl _
        · exact Nat.le_trans hc.2 (hm0min q hmem hqst)
      · rw [if_neg hc] at h
        cases h
        refine ⟨List.mem_cons_of_mem r hm0mem, hm0q, ?_⟩
        intro q hqmem hqst
        rcases List.mem_cons.mp hqmem with rfl | hmem
        · by_cases hq : q.state = "queued"
          · have : ¬ q.id ≤ m.id := fun hle => hc ⟨hq, hle⟩
            omega
          · exact absurd hqst hq
        · exact hm0min q hmem hqst

theorem selectMinQueued_none_iff (db : List RunRow) :
    selectMinQueued db = none ↔ ∀ r ∈ db, r.state ≠ "queued" := by
  constructor
  · exact selectMinQueued_none_forall db
  · intro hall
    cases hsel : selectMinQueued db with
    | none => rfl
    | some m =>
      obtain ⟨hmem, hq, _⟩ := selectMinQueued_some_spec db m hsel
      exact absurd hq (hall m hmem)

/-- C1: claim_job returns none exactly when no row is queued; otherwise it
picks a queued row of smallest id, applies the claiming update (claimUpdate:
state running, worker_id, started_at, heartbeat_at, attempt incremented)
to that row in the table and returns the updated row.  The single SQL
transaction is modelled as one atomic function on the table. -/
theorem claim_job_spec (db : List RunRow) (wid : String) (now : Nat) :
    ((claim_job db wid now).fst = none ↔ ∀ r ∈ db, r.state ≠ "queued") ∧
    ((claim_job db wid now).fst = none → (claim_job db wid now).snd = db) ∧
    (∀ r', (claim_job db wid now).fst = some r' →
      ∃ r, r ∈ db ∧ r.state = "queued" ∧
        (∀ q ∈ db, q.state = "queued" → r.id ≤ q.id) ∧
        r' = claimUpdate r wid now ∧
        (claim_job db wid now).snd =
          db.map (fun row => if row.id = r.id then claimUpdate row wid now else row)) := by
  cases hsel : selectMinQueued db with
  | none =>
    refine ⟨?_, ?_, ?_⟩
    · refine iff_of_true ?_ (selectMinQueued_none_forall db hsel)
      simp [claim_job, hsel]
    · intro _; simp [claim_job, hsel]
    · intro r' hr'; simp [claim_job, hsel] at hr'
  | some m =>
    obtain ⟨hmem, hq, hmin⟩ := selectMinQueued_some_spec db m hsel
    refine ⟨?_, ?_, ?_⟩
    · simp only [claim_job, hsel]
      constructor
      · intro h; cases h
      · intro hall; exact absurd hq (hall m hmem)
    · intro h; simp [claim_job, hsel] at h
    · intro r' hr'
      simp only [claim_job, hsel] at hr' ⊢
      cases hr'
      exact ⟨m, hmem, hq, hmin, rfl, rfl⟩

/-- Witness for claim_job_spec on the one-row queued table. -/
theorem claim_job_spec_witness :
    ∃ r, r ∈ [rowQ] ∧ r.state = "queued" ∧
      (∀ q ∈ [rowQ], q.state = "queued" → r.id ≤ q.id) ∧
      claimUpdate rowQ "w1" 7 = claimUpdate r "w1" 7 ∧
      (claim_job [rowQ] "w1" 7).snd =
        [rowQ].map (fun row => if row.id = r.id then claimUpdate row "w1" 7 else row) :=
  (claim_job_spec [rowQ] "w1" 7).2.2 (claimUpdate rowQ "w1" 7) rfl

/-- C2: set_state is a row-wise UPDATE whose WHERE clause excludes rows in
state canceled, so a canceled run row is left entirely unchanged by any
SetFinalState call, whatever the new state, result or error arguments. -/
theorem set_state_canceled_absorbing (db : List RunRow) (job_id : Nat)
    (new_state : String) (result : Option Json) (error : Option String) (now : Nat) :
    set_state db job_id new_state result error now =
      db.map (set_state_row job_id new_state result error now) ∧
    ∀ row : RunRow, row.state = "canceled" →
      set_state_row job_id new_state result error now row = row := by
  refine ⟨rfl, ?_⟩
  intro row h
  simp [set_state_row, h]

/-- Witness for set_state_canceled_absorbing at a concrete canceled row. -/
theorem set_state_canceled_absorbing_witness :
    set_state_row 4 "succeeded" (some (Json.obj [("x", Json.num 2)])) none 5 rowCanceled =
      rowCanceled :=
  (set_state_canceled_absorbing [rowCanceled] 4 "succeeded"
    (some (Json.obj [("x", Json.num 2)])) none 5).2 rowCanceled rfl

/-- C6: the claim fails on the code.  set_state converts a missing result
argument to the JSON text of the empty object before binding it, so the
COALESCE in the SQL never receives NULL: finalising the run as failed with
result = none overwrites the stored result with the empty object instead
of leaving it unchanged. -/
theorem set_state_null_result_overwrites :
    (set_state [rowWithResult] 1 "failed" none (some "boom") 9).map (fun r => r.result) =
      [some (Json.obj [])] ∧
    rowWithResult.result = some (Json.obj [("a", Json.num 1)]) :=
  ⟨rfl, rfl⟩

/-- C7: the worker finalises a completed job as needs_input exactly when
the runner's result map contains the key "__interrupt__" and as succeeded
otherwise, and passes that state to set_state. -/
theorem worker_terminal_state (result : List (String × Json)) :
    (run_wirl_state result = "needs_input" ↔ hasKey result "__interrupt__" = true) ∧
    (run_wirl_state result = "succeeded" ↔ hasKey result "__interrupt__" = false) ∧
    ∀ (db : List RunRow) (job_id now : Nat),
      worker_finalize db job_id (RunOutcome.completed result) now =
        set_state db job_id (run_wirl_state result) (some (Json.obj result)) none now := by
  refine ⟨?_, ?_, fun _ _ _ => rfl⟩
  · by_cases h : hasKey result "__interrupt__" = true <;>
      simp [run_wirl_state, h]
  · by_cases h : hasKey result "__interrupt__" = true <;>
      simp [run_wirl_state, h]

/-- C5: continue is rejected with 400 (run and table unchanged) unless the
state is needs_input or failed; from needs_input it stores the JSON
document for answer wrapped around the request inputs in resume_payload
and queues the run; from failed it queues the run leaving resume_payload
as it was. -/
theorem continue_transitions (run : RunRow) (inputs : Json) (db : List RunRow)
    (run_id : Nat) :
    (¬ run.state = "needs_input" → ¬ run.state = "failed" →
      continue_run run inputs = ApiResult.err 400 "Workflow cannot be continued") ∧
    (run.state = "needs_input" →
      continue_run run inputs =
        ApiResult.ok { run with
          state := "queued"
          resume_payload := some (Json.obj [("answer", inputs)]) }) ∧
    (run.state = "failed" →
      continue_run run inputs = ApiResult.ok { run with state := "queued" }) ∧
    (db.find? (fun r => r.id == run_id) = some run →
      ¬ run.state = "needs_input" → ¬ run.state = "failed" →
      continue_workflow db run_id inputs =
        (ApiResult.err 400 "Workflow cannot be continued", db)) := by
  refine ⟨?_, ?_, ?_, ?_⟩
  · intro h1 h2; simp [continue_run, h1, h2]
  · intro h; simp [continue_run, h]
  · intro h; simp [continue_run, h]
  · intro hf h1 h2
    simp [continue_workflow, hf, continue_run, h1, h2]

/-- Witness for continue_transitions: one application per transition kind. -/
theorem continue_transitions_witness :
    continue_run rowNeedsInput (Json.str "yes") =
      ApiResult.ok { rowNeedsInput with
        state := "queued"
        resume_payload := some (Json.obj [("answer", Json.str "yes")]) } ∧
    continue_run rowFailed (Json.str "yes") =
      ApiResult.ok { rowFailed with state := "queued" } ∧
    continue_run rowRunning (Json.str "yes") =
      ApiResult.err 400 "Workflow cannot be continued" :=
  ⟨(continue_transitions rowNeedsInput (Json.str "yes") [] 0).2.1 rfl,
   (continue_transitions rowFailed (Json.str "yes") [] 0).2.2.1 rfl,
   (continue_transitions rowRunning (Json.str "yes") [] 0).1
     (by decide) (by decide)⟩

/-- C10: continue from failed succeeds and re-queues the run for every
value of attempt and max_attempts, and max_attempts is consulted by none
of the row operations: set_state_row and claimUpdate commute with
overwriting it. -/
theorem retry_not_gated_by_max_attempts (run : RunRow) (inputs : Json) (a m : Nat)
    (h : run.state = "failed") :
    continue_run { run with attempt := a, max_attempts := m } inputs =
      ApiResult.ok { run with attempt := a, max_attempts := m, state := "queued" } ∧
    (∀ (job_id : Nat) (new_state : String) (result : Option Json)
        (error : Option String) (now k : Nat),
      set_state_row job_id new_state result error now { run with max_attempts := k } =
        { set_state_row job_id new_state result error now run with max_attempts := k }) ∧
    (∀ (wid : String) (now k : Nat),
      claimUpdate { run with max_attempts := k } wid now =
        { claimUpdate run wid now with max_attempts := k }) := by
  refine ⟨?_, ?_, fun _ _ _ => rfl⟩
  · simp [continue_run, h]
  · intro job_id new_state result error now k
    by_cases hc : run.id = job_id ∧ ¬ run.state = "canceled" <;>
      simp [set_state_row, hc]

/-- Witness for retry_not_gated_by_max_attempts at a concrete failed run. -/
theorem retry_not_gated_by_max_attempts_witness :
    continue_run { rowFailed with attempt := 9, max_attempts := 3 } Json.null =
      ApiResult.ok { rowFailed with attempt := 9, max_attempts := 3, state := "queued" } ∧
    set_state_row 6 "failed" none none 2 { rowFailed with max_attempts := 0 } =
      { set_state_row 6 "failed" none none 2 rowFailed with max_attempts := 0 } :=
  ⟨(retry_not_gated_by_max_attempts rowFailed Json.null 9 3 rfl).1,
   (retry_not_gated_by_max_attempts rowFailed Json.null 9 3 rfl).2.1 6 "failed" none none 2 0⟩

/-- C9 counterexample: the claim asserts status 400 for limit = 0, but the
endpoint's validation (FastAPI's standard behaviour for a violated Query
constraint) answers 422. -/
theorem workflows_history_limit0_not_400 :
    workflows_history [] 0 0 = ApiResult.err 422 "validation error" ∧
    (422 : Nat) ≠ 400 :=
  ⟨rfl, by decide⟩

/-- C9 as amended: out-of-range pagination is rejected with status 422
(limit = 0, limit = 101, or any negative offset), and in-range requests
succeed with the full count and a page ordered newest first (created_at
non-increasing). -/
theorem workflows_history_spec (db : List RunRow) (limit offset : Int) :
    (workflows_history db 0 offset = ApiResult.err 422 "validation error") ∧
    (workflows_history db 101 offset = ApiResult.err 422 "validation error") ∧
    (offset < 0 → workflows_history db limit offset = ApiResult.err 422 "validation error") ∧
    (1 ≤ limit → limit ≤ 100 → 0 ≤ offset →
      ∃ page, workflows_history db limit offset = ApiResult.ok page ∧
        page.total = db.length ∧
        page.items.Pairwise (fun a b => b.created_at ≤ a.created_at)) := by
  refine ⟨?_, ?_, ?_, ?_⟩
  · simp [workflows_history]
  · simp [workflows_history]
  · intro h
    simp only [workflows_history]
    rw [if_pos (Or.inr (Or.inr h))]
  · intro h1 h2 h3
    have hcond : ¬ (limit < 1 ∨ 100 < limit ∨ offset < 0) := by omega
    refine ⟨_, by simp only [workflows_history]; rw [if_neg hcond], rfl, ?_⟩
    have hsorted : List.Sorted histRel (List.insertionSort histRel db) :=
      List.sorted_insertionSort histRel db
    have hdrop : List.Pairwise histRel ((List.insertionSort histRel db).drop offset.toNat) :=
      List.Pairwise.sublist (List.drop_sublist _ _) hsorted
    have htake :
        List.Pairwise histRel
          (((List.insertionSort histRel db).drop offset.toNat).take limit.toNat) :=
      List.Pairwise.sublist (List.take_sublist _ _) hdrop
    rw [List.pairwise_map]
    exact htake

/-- Witness for workflows_history_spec: an in-range request over two rows
yields a page, newest first. -/
theorem workflows_history_spec_witness :
    ∃ page, workflows_history [rowOld, rowNew] 10 0 = ApiResult.ok page ∧
      page.total = [rowOld, rowNew].length ∧
      page.items.Pairwise (fun a b => b.created_at ≤ a.created_at) :=
  (workflows_history_spec [rowOld, rowNew] 10 0).2.2.2
    (by decide) (by decide) (by decide)

/-! ## Lemmas about the cron evaluator -/

theorem findNextMatch_spec (e : CronExpr) (z : Nat) :
    ∀ (fuel m0 m : Nat), findNextMatch e z fuel m0 = some m →
      m0 ≤ m ∧ cronMatches e (m + z) = true ∧
      ∀ k, m0 ≤ k → k < m → cronMatches e (k + z) = false := by
  intro fuel
  induction fuel with
  | zero => intro m0 m h; cases h
  | succ n ih =>
    intro m0 m h
    simp only [findNextMatch] at h
    by_cases hc : cronMatches e (m0 + z) = true
    · rw [if_pos hc] at h
      cases h
      exact ⟨Nat.le_refl _, hc, fun k hk1 hk2 => absurd (Nat.lt_of_le_of_lt hk1 hk2) (Nat.lt_irrefl _)⟩
    · rw [if_neg hc] at h
      obtain ⟨h1, h2, h3⟩ := ih (m0 + 1) m h
      refine ⟨Nat.le_trans (Nat.le_succ _) h1, h2, ?_⟩
      intro k hk1 hk2
      rcases Nat.eq_or_lt_of_le hk1 with rfl | hlt
      · exact Bool.eq_false_iff.mpr hc
      · exact h3 k hlt hk2

/-- The full correctness property of calculate_next_run: the returned UTC
instant is strictly after the reference instant, it is a firing instant of
the expression in the zone, and no firing instant lies strictly between
the two. -/
theorem calculate_next_run_spec (e : CronExpr) (z t fuel r : Nat)
    (h : calculate_next_run e z t fuel = some r) :
    t < r ∧ matchesInZone e z r = true ∧
    ∀ s, t < s → s < r → matchesInZone e z s = false := by
  simp only [calculate_next_run, Option.map_eq_some'] at h
  obtain ⟨m, hm, rfl⟩ := h
  obtain ⟨h1, h2, h3⟩ := findNextMatch_spec e z fuel (t / 60 + 1) m hm
  refine ⟨by omega, ?_, ?_⟩
  · have hmod : m * 60 % 60 = 0 := by omega
    have hdiv : m * 60 / 60 = m := by omega
    simp [matchesInZone, hmod, hdiv, h2]
  · intro s hts hsr
    cases hb : matchesInZone e z s with
    | false => rfl
    | true =>
      exfalso
      simp only [matchesInZone, Bool.and_eq_true, decide_eq_true_eq] at hb
      obtain ⟨hs0, hsc⟩ := hb
      have hk1 : t / 60 + 1 ≤ s / 60 := by omega
      have hk2 : s / 60 < m := by omega
      have := h3 (s / 60) hk1 hk2
      rw [this] at hsc
      cases hsc

/-- C3: whenever calculate_next_run returns an instant r for expression e,
zone offset z and reference instant t, then r is strictly after t, r is a
firing instant of e in the zone, and no instant strictly between t and r
is one: r is the minimal next firing, re-expressed in UTC seconds. -/
theorem calculate_next_run_correct (e : CronExpr) (z t fuel r : Nat)
    (h : calculate_next_run e z t fuel = some r) :
    t < r ∧ matchesInZone e z r = true ∧
    ∀ s, t < s → s < r → matchesInZone e z s = false :=
  calculate_next_run_spec e z t fuel r h

/-- Witness for calculate_next_run_correct: from t = 90 s (00:01:30 UTC)
the next firing is 120 s (00:02:00), strictly later, matching, minimal. -/
theorem calculate_next_run_correct_witness :
    90 < 120 ∧ matchesInZone cronW 0 120 = true ∧
    ∀ s, 90 < s → s < 120 → matchesInZone cronW 0 s = false :=
  calculate_next_run_correct cronW 0 90 2 120 (by decide)

/-- C4: after a scheduler tick acts on a trigger at instant now, either the
trigger's next_run_at is strictly later than now (it is recomputed from
now itself, never from the stale value, so any number of missed firings
collapses into this one tick) or it is null with the trigger disabled;
when the template exists the tick enqueues exactly one run, queued,
carrying the trigger's inputs; when it is missing no run is enqueued. -/
theorem enqueue_trigger_run_spec (templateExists : Bool) (tr : Trigger)
    (now freshId fuel : Nat) :
    ((∃ r, (enqueue_trigger_run templateExists tr now freshId fuel).fst.next_run_at = some r ∧
        now < r) ∨
      ((enqueue_trigger_run templateExists tr now freshId fuel).fst.next_run_at = none ∧
        (enqueue_trigger_run templateExists tr now freshId fuel).fst.is_active = false)) ∧
    (templateExists = true →
      ∃ run, (enqueue_trigger_run templateExists tr now freshId fuel).snd = some run ∧
        run.state = "queued" ∧ run.inputs = some tr.inputs ∧ run.created_at = now) ∧
    (templateExists = false →
      (enqueue_trigger_run templateExists tr now freshId fuel).snd = none) := by
  cases templateExists with
  | false =>
    refine ⟨Or.inr ⟨rfl, rfl⟩, ?_, fun _ => rfl⟩
    intro h; cases h
  | true =>
    cases hc : calculate_next_run tr.cron tr.tzOffset now fuel with
    | none =>
      refine ⟨?_, ?_, ?_⟩
      · right
        constructor <;> simp [enqueue_trigger_run, hc]
      · intro _
        simp only [enqueue_trigger_run, hc]
        exact ⟨_, rfl, rfl, rfl, rfl⟩
      · intro h; cases h
    | some r =>
      have hlt := (calculate_next_run_spec tr.cron tr.tzOffset now fuel r hc).1
      refine ⟨?_, ?_, ?_⟩
      · left
        refine ⟨r, ?_, hlt⟩
        simp [enqueue_trigger_run, hc]
      · intro _
        simp only [enqueue_trigger_run, hc]
        exact ⟨_, rfl, rfl, rfl, rfl⟩
      · intro h; cases h

/-- Witness for enqueue_trigger_run_spec at a concrete trigger and tick. -/
theorem enqueue_trigger_run_spec_witness :
    ∃ run, (enqueue_trigger_run true trigW 90 42 2).snd = some run ∧
      run.state = "queued" ∧ run.inputs = some trigW.inputs ∧ run.created_at = 90 :=
  (enqueue_trigger_run_spec true trigW 90 42 2).2.1 rfl

/-! ## Lemmas about the run-details reader -/

theorem startsWithS_branch_to_branch (s : String)
    (h : startsWithS s "branch:to:" = true) : startsWithS s "branch:" = true := by
  unfold startsWithS at h ⊢
  rw [List.isPrefixOf_iff_prefix] at h ⊢
  exact List.IsPrefix.trans ⟨"to:".toList, rfl⟩ h

theorem classify_state_iff (c : String) :
    classify_channel c = "state" ↔
      startsWithS c "branch:" = false ∧ startsWithS c "__" = false := by
  unfold classify_channel
  by_cases h1 : startsWithS c "branch:" = true
  · simp [h1]
  · by_cases h2 : startsWithS c "__" = true
    · simp [h1, h2]
    · simp [h1, h2, Bool.eq_false_iff.mpr h1, Bool.eq_false_iff.mpr h2]

theorem apply_write_proj (acc : GroupAcc) (w : String × Json) :
    (apply_write acc w).state_after = state_step acc.state_after w ∧
    (apply_write acc w).output_changes = state_step acc.output_changes w := by
  by_cases h1 : startsWithS w.fst "branch:to:" = true
  · simp [apply_write, state_step, h1]
  · by_cases h2 : classify_channel w.fst = "state" <;>
      simp [apply_write, state_step, h1, h2]

theorem foldl_apply_write (ws : List (String × Json)) :
    ∀ acc : GroupAcc,
      (ws.foldl apply_write acc).state_after = ws.foldl state_step acc.state_after ∧
      (ws.foldl apply_write acc).output_changes = ws.foldl state_step acc.output_changes := by
  induction ws with
  | nil => intro acc; exact ⟨rfl, rfl⟩
  | cons w ws ih =>
    intro acc
    simp only [List.foldl_cons]
    obtain ⟨h1, h2⟩ := ih (apply_write acc w)
    rw [h1, h2, (apply_write_proj acc w).1, (apply_write_proj acc w).2]
    exact ⟨rfl, rfl⟩

theorem lookup_insertS (m : SMap) (k : String) (v : Json) (c : String) :
    lookupS (insertS m k v) c = if k = c then some v else lookupS m c := by
  induction m with
  | nil =>
    by_cases h : k = c <;> simp [insertS, lookupS, h]
  | cons kv m ih =>
    by_cases hk : kv.fst = k
    · simp only [insertS, if_pos hk]
      by_cases hc : k = c
      · simp [lookupS, hc]
      · simp [lookupS, hc, hk ▸ hc]
    · simp only [insertS, if_neg hk]
      by_cases hc : kv.fst = c
      · have hkc : ¬ k = c := fun h => hk (h ▸ hc)
        simp [lookupS, hc, hkc]
      · simp [lookupS, hc, ih]

theorem lookup_state_step (m : SMap) (w : String × Json) (c : String) :
    lookupS (state_step m w) c =
      if w.fst = c ∧ startsWithS w.fst "branch:" = false ∧ startsWithS w.fst "__" = false
      then some w.snd else lookupS m c := by
  by_cases h1 : startsWithS w.fst "branch:to:" = true
  · have hb : startsWithS w.fst "branch:" = true := startsWithS_branch_to_branch _ h1
    have hcond :
        ¬ (w.fst = c ∧ startsWithS w.fst "branch:" = false ∧ startsWithS w.fst "__" = false) := by
      rintro ⟨_, hbf, _⟩; rw [hb] at hbf; cases hbf
    simp [state_step, h1, hcond]
  · by_cases h2 : classify_channel w.fst = "state"
    · obtain ⟨hbf, huf⟩ := (classify_state_iff w.fst).mp h2
      rw [state_step, if_neg h1, if_pos h2, lookup_insertS]
      by_cases hc : w.fst = c
      · subst hc
        simp [hbf, huf]
      · simp [hc]
    · have hcond :
        ¬ (w.fst = c ∧ startsWithS w.fst "branch:" = false ∧ startsWithS w.fst "__" = false) := by
        rintro ⟨_, hbf, huf⟩
        exact h2 ((classify_state_iff w.fst).mpr ⟨hbf, huf⟩)
      simp [state_step, h1, h2, hcond]

theorem foldl_state_step_lookup (ws : List (String × Json)) :
    ∀ (m : SMap) (c : String),
      lookupS (ws.foldl state_step m) c =
        match spec_output_state ws c with
        | some v => some v
        | none => lookupS m c := by
  induction ws with
  | nil => intro m c; rfl
  | cons w ws ih =>
    intro m c
    simp only [List.foldl_cons, spec_output_state]
    rw [ih (state_step m w) c]
    cases hs : spec_output_state ws c with
    | some v => rfl
    | none =>
      simp only []
      rw [lookup_state_step]
      by_cases hcond :
          w.fst = c ∧ startsWithS w.fst "branch:" = false ∧ startsWithS w.fst "__" = false
      · rw [if_pos hcond, if_pos hcond]
      · rw [if_neg hcond, if_neg hcond]

theorem output_changes_eq_spec (g : Group) (c : String) :
    lookupS (g.writes.foldl state_step []) c = spec_output_state g.writes c := by
  rw [foldl_state_step_lookup]
  cases hs : spec_output_state g.writes c <;> rfl

/-- C8: for the reader's loop over the write groups of a checkpoint, every
emitted step's input_state is exactly the current state before its own
group is applied (the starting state updated by all earlier groups), and
its output_state holds exactly the state-channel writes of its group: the
value recorded under any channel c is the last state-channel write of the
group to c, and channels with no such write are absent. -/
theorem reader_step_states (cpId ts : String) (stepNum : Option Int) :
    ∀ (gs : List Group) (nsteps : Nat) (state : SMap) (pending : List String)
      (i : Nat) (hg : i < gs.length)
      (hs : i < (process_groups cpId ts stepNum nsteps state pending gs).fst.length),
      ((process_groups cpId ts stepNum nsteps state pending gs).fst.get ⟨i, hs⟩).input_state =
        List.foldl apply_group_state state (gs.take i) ∧
      ∀ c,
        lookupS
          (((process_groups cpId ts stepNum nsteps state pending gs).fst.get
            ⟨i, hs⟩).output_state) c =
          spec_output_state ((gs.get ⟨i, hg⟩).writes) c := by
  intro gs
  induction gs with
  | nil => intro nsteps state pending i hg hs; cases hg
  | cons g gs ih =>
    intro nsteps state pending i hg hs
    cases i with
    | zero =>
      constructor
      · show (process_group cpId ts stepNum nsteps state pending g).fst.input_state = _
        simp [process_group]
      · intro c
        show lookupS (process_group cpId ts stepNum nsteps state pending g).fst.output_state c = _
        have hout :
            (process_group cpId ts stepNum nsteps state pending g).fst.output_state =
              g.writes.foldl state_step [] := by
          simp only [process_group]
          exact (foldl_apply_write g.writes _).2
        rw [hout]
        exact output_changes_eq_spec g c
    | succ i =>
      have hg' : i < gs.length := Nat.lt_of_succ_lt_succ hg
      have hstate :
          (process_group cpId ts stepNum nsteps state pending g).snd.fst =
            apply_group_state state g := by
        simp only [process_group, apply_group_state]
        exact (foldl_apply_write g.writes _).1
      have hrec := ih (nsteps + 1)
        (process_group cpId ts stepNum nsteps state pending g).snd.fst
        (process_group cpId ts stepNum nsteps state pending g).snd.snd
        i hg'
      simp only [process_groups] at hs ⊢
      simp only [List.length_cons, List.get_cons_succ] at hs ⊢
      obtain ⟨hin, hout⟩ := hrec (by exact Nat.lt_of_succ_lt_succ hs)
      refine ⟨?_, ?_⟩
      · rw [hin, hstate]
        rfl
      · intro c
        exact hout c

/-- Witness for reader_step_states at a one-group checkpoint: the step's
input_state is the incoming snapshot; its output_state records the state
write and ignores the control and system writes. -/
theorem reader_step_states_witness :
    ((process_groups "cp1" "ts1" (some 1) 0 [("seed", Json.num 0)] ["AskNode"]
        [groupW]).fst.get ⟨0, by decide⟩).input_state = [("seed", Json.num 0)] ∧
    lookupS
      (((process_groups "cp1" "ts1" (some 1) 0 [("seed", Json.num 0)] ["AskNode"]
        [groupW]).fst.get ⟨0, by decide⟩).output_state) "AskNode.answer" =
      some (Json.num 1) ∧
    lookupS
      (((process_groups "cp1" "ts1" (some 1) 0 [("seed", Json.num 0)] ["AskNode"]
        [groupW]).fst.get ⟨0, by decide⟩).output_state) "branch:to:B" = none := by
  have h := reader_step_states "cp1" "ts1" (some 1) [groupW] 0
    [("seed", Json.num 0)] ["AskNode"] 0 (by decide) (by decide)
  refine ⟨h.1, ?_, ?_⟩
  · rw [h.2 "AskNode.answer"]; rfl
  · rw [h.2 "branch:to:B"]; rfl

end Wirl
